import Mathlib

set_option autoImplicit false

/-!
Shallow embedding of `pkg/cmd/cluster-policy-controller/policy_controller.go`:
the two readiness waits (`WaitForHealthyAPIServer`, `WaitForAuthorizationUpdate`),
the `startControllers` driver, the leadership callback `originControllerManager`,
and the entry point `RunClusterPolicyController`.

Time is discretised: one poll interval (`time.Second`) is one step, so the
five-minute health budget of `wait.PollImmediate` is 300 condition calls and
the two-minute authorization budget is 120 condition calls.  A client is
modelled as the sequence of outcomes its calls would observe: call number `k`
observes the value of the sequence at `k`.
-/

/-- Errors observable from the orchestration code.  `timedOut` is
`wait.ErrWaitTimeout`; `serverUnhealthy` is the wrapper
`fmt.Errorf("server unhealthy: %v: %v", healthzContent, err)` built by
`WaitForHealthyAPIServer`; `missingRBAC` is the wrapper built by
`WaitForAuthorizationUpdate`; `controllerStart` is the fatal condition raised
by `startControllers` via `klog.Fatalf("Error starting %q (%v)", ...)`;
`transport` is a request/transport error from a client call; `other` is an
error from an external collaborator, left abstract. -/
inductive Err where
  | transport (msg : String)
  | timedOut
  | serverUnhealthy (healthzContent : String) (cause : Err)
  | missingRBAC (cause : Err)
  | controllerStart (controllerName : String) (cause : Err)
  | other (msg : String)
  deriving DecidableEq

/-- Message of an error, following the `fmt.Errorf` format strings of the
source (`%q` renders the name between double quotes, `%v` the nested error). -/
def errMessage : Err → String
  | Err.transport msg => msg
  | Err.timedOut => "timed out waiting for the condition"
  | Err.serverUnhealthy healthzContent cause =>
      "server unhealthy: " ++ healthzContent ++ ": " ++ errMessage cause
  | Err.missingRBAC cause =>
      "server missing RBAC policy for system:kube-controller-manager: " ++ errMessage cause
  | Err.controllerStart controllerName cause =>
      "Error starting \"" ++ controllerName ++ "\" (" ++ errMessage cause ++ ")"
  | Err.other msg => msg

/-- Boolean test that `pat` is an initial segment of `s` (over characters). -/
def startsWithChars : List Char → List Char → Bool
  | [], _ => true
  | _ :: _, [] => false
  | a :: pat, b :: s => a == b && startsWithChars pat s

/-- Boolean test that `pat` occurs contiguously somewhere inside `s`. -/
def hasSub (pat : List Char) : List Char → Bool
  | [] => startsWithChars pat []
  | c :: s => startsWithChars pat (c :: s) || hasSub pat s

/-- Outcome of one `GET /healthz` probe: an HTTP response (status code and
raw body), or a transport error that produced no response. -/
inductive ProbeResult where
  | resp (status : Nat) (body : String)
  | transportError (msg : String)
  deriving DecidableEq

/-- Status code read by `Result.StatusCode(&healthStatus)`: a transport error
leaves `healthStatus` at its zero value, so it reads as `0`, which is not
`http.StatusOK`. -/
def probeStatus : ProbeResult → Nat
  | ProbeResult.resp status _ => status
  | ProbeResult.transportError _ => 0

/-- Body returned by `resp.Raw()`, empty when there was no response. -/
def probeBody : ProbeResult → String
  | ProbeResult.resp _ body => body
  | ProbeResult.transportError _ => ""

/-- Condition calls `wait.PollImmediate(time.Second, 5*time.Minute, ...)` can
make: one per second for five minutes. -/
def healthBudget : Nat := 5 * 60

/-- Condition calls `wait.PollImmediate(time.Second, 2*time.Minute, ...)` can
make: one per second for two minutes. -/
def authBudget : Nat := 2 * 60

/-- Polling loop of `WaitForHealthyAPIServer`.  `client` is the sequence of
probe outcomes, `i` the index of the next call, and the `String` argument the
closure variable `healthzContent`.  Returns the error of the poll (`none` on
success), the final value of `healthzContent`, and the number of condition
calls made.  Mirroring the source, the condition returns `(false, nil)`
whenever the status is not 200 — including on a transport error — so the only
error the poll can produce is the timeout; and `healthzContent` is assigned
(from `resp.Raw()`) only on the success branch. -/
def healthLoop (client : Nat → ProbeResult) : Nat → Nat → String → Option Err × String × Nat
  | 0, _, healthzContent => (some Err.timedOut, healthzContent, 0)
  | b + 1, i, healthzContent =>
    if probeStatus (client i) ≠ 200 then
      ((healthLoop client b (i + 1) healthzContent).1,
       (healthLoop client b (i + 1) healthzContent).2.1,
       (healthLoop client b (i + 1) healthzContent).2.2 + 1)
    else
      (none, probeBody (client i), 1)

/-- Embedding of `WaitForHealthyAPIServer`: polls `GET /healthz` once per second for up to
five minutes, wrapping a poll failure as
`fmt.Errorf("server unhealthy: %v: %v", healthzContent, err)`. -/
def WaitForHealthyAPIServer (client : Nat → ProbeResult) : Option Err :=
  match healthLoop client healthBudget 0 "" with
  | (some e, healthzContent, _) => some (Err.serverUnhealthy healthzContent e)
  | (none, _, _) => none

/-- Number of probe calls one run of `WaitForHealthyAPIServer` performs. -/
def healthCalls (client : Nat → ProbeResult) : Nat :=
  (healthLoop client healthBudget 0 "").2.2

/-- ResourceAttributes of the synthetic `SubjectAccessReview` (`nspace` is
the `Namespace` field; `namespace` is a Lean keyword). -/
structure ResourceAttributes where
  group : String
  verb : String
  resource : String
  nspace : String
  deriving DecidableEq

/-- Spec of a `SubjectAccessReview`: resource attributes plus user. -/
structure SubjectAccessReviewSpec where
  resourceAttributes : ResourceAttributes
  user : String
  deriving DecidableEq

/-- The fixed review submitted by `WaitForAuthorizationUpdate`. -/
def review : SubjectAccessReviewSpec :=
  { resourceAttributes :=
      { group := ""
        verb := "get"
        resource := "configmaps"
        nspace := "openshift-kube-controller-manager" }
    user := "system:kube-controller-manager" }

/-- Outcome of one `SubjectAccessReviews().Create` call: a response carrying
`Status.Allowed`, or a request error. -/
inductive AuthResult where
  | resp (allowed : Bool)
  | transportError (msg : String)
  deriving DecidableEq

/-- Polling loop of `WaitForAuthorizationUpdate`: call `k` submits the fixed
`review` and observes `client review k`.  Mirroring the source, a request
error is returned from the condition, which stops `wait.PollImmediate` with
that error at once; a response with `Allowed = false` is `(false, nil)`,
i.e. retry; `Allowed = true` ends the poll successfully.  Returns the poll
error (`none` on success) and the number of calls made. -/
def authLoop (client : SubjectAccessReviewSpec → Nat → AuthResult) : Nat → Nat → Option Err × Nat
  | 0, _ => (some Err.timedOut, 0)
  | b + 1, i =>
    match client review i with
    | AuthResult.transportError m => (some (Err.transport m), 1)
    | AuthResult.resp allowed =>
      if allowed then
        (none, 1)
      else
        ((authLoop client b (i + 1)).1, (authLoop client b (i + 1)).2 + 1)

/-- Embedding of `WaitForAuthorizationUpdate`: polls the fixed `SubjectAccessReview` once
per second for up to two minutes, wrapping any poll failure as
`fmt.Errorf("server missing RBAC policy for system:kube-controller-manager: %v", err)`. -/
def WaitForAuthorizationUpdate (client : SubjectAccessReviewSpec → Nat → AuthResult) : Option Err :=
  match (authLoop client authBudget 0).1 with
  | some e => some (Err.missingRBAC e)
  | none => none

/-- Number of review calls one run of `WaitForAuthorizationUpdate` performs. -/
def authCalls (client : SubjectAccessReviewSpec → Nat → AuthResult) : Nat :=
  (authLoop client authBudget 0).2

/-- The slice of `ControllerContext` this file needs: the
`IsControllerEnabled` predicate. -/
structure ControllerContext where
  enabled : String → Bool

/-- One entry of the `ControllerInitializers` registry: a controller name and
its `InitFunc`, modelled as a pure function of the context returning
`(started, err)`. -/
structure Controller where
  name : String
  initFn : ControllerContext → Bool × Option Err

/-- Embedding of `startControllers`: walks the registry in order.  A disabled controller
is skipped without calling its `InitFunc`; an `InitFunc` error is fatal
(`klog.Fatalf("Error starting %q (%v)", controllerName, err)`) and ends the
walk at once; a `(false, nil)` return is a logged skip and the walk
continues.  Returns the fatal outcome (`none` when the walk completed), the
names whose `InitFunc` was invoked, in order, and the names that reported
`started = true`, in order. -/
def startControllers (cc : ControllerContext) : List Controller → Option Err × List String × List String
  | [] => (none, [], [])
  | c :: rest =>
    if cc.enabled c.name = false then
      startControllers cc rest
    else
      match (c.initFn cc).2 with
      | some e => (some (Err.controllerStart c.name e), [c.name], [])
      | none =>
        if (c.initFn cc).1 = false then
          ((startControllers cc rest).1,
           c.name :: (startControllers cc rest).2.1,
           (startControllers cc rest).2.2)
        else
          ((startControllers cc rest).1,
           c.name :: (startControllers cc rest).2.1,
           c.name :: (startControllers cc rest).2.2)

/-- Observable steps of the callback of one leadership term.  `healthOk`,
`authOk` and `ctxOk` are the successful completions of the health wait, the
authorization wait and `NewControllerContext`; `initCall name` is the
completed invocation of the `InitFunc` of one controller; `informersStart` is the
call to `controllerContext.StartInformers`; `fatal e` is a `klog.Fatal`
terminating the process. -/
inductive Step where
  | healthOk
  | authOk
  | ctxOk
  | initCall (name : String)
  | informersStart
  | fatal (e : Err)
  deriving DecidableEq

/-- Collaborator behaviour for one leadership term: the probe outcomes, the
authorization outcomes, the result of `NewControllerContext`, and the
`ControllerInitializers` registry. -/
structure World where
  healthClient : Nat → ProbeResult
  authClient : SubjectAccessReviewSpec → Nat → AuthResult
  newContext : Except Err ControllerContext
  registry : List Controller

/-- Embedding of `originControllerManager`, the `OnStartedLeading` callback: health wait,
then authorization wait, then `NewControllerContext`, then
`startControllers`, then `StartInformers`; every error on the way is passed
to `klog.Fatal`, which terminates the process.  The value is the ordered
trace of observable steps; a trailing `Step.fatal` is the process dying (the
fatal raised inside `startControllers` by `klog.Fatalf` already names the
controller, so the `klog.Fatal` of the caller is never reached in the
source — one fatal step is emitted either way). -/
def originControllerManager (w : World) : List Step :=
  match WaitForHealthyAPIServer w.healthClient with
  | some e => [Step.fatal e]
  | none =>
    Step.healthOk ::
      match WaitForAuthorizationUpdate w.authClient with
      | some e => [Step.fatal e]
      | none =>
        Step.authOk ::
          match w.newContext with
          | Except.error e => [Step.fatal e]
          | Except.ok cc =>
            Step.ctxOk ::
              match startControllers cc w.registry with
              | (some e, invoked, _) => invoked.map Step.initCall ++ [Step.fatal e]
              | (none, invoked, _) => invoked.map Step.initCall ++ [Step.informersStart]

/-- Outcomes of the setup steps `RunClusterPolicyController` performs before
spawning the leader-election loop: `kubernetes.NewForConfig`, the optional
`RunControllerServer` (run only when `config.ServingInfo` is set),
`os.Hostname`, and `resourcelock.New`. -/
structure RunDeps where
  newForConfig : Option Err
  servingInfo : Bool
  runControllerServer : Option Err
  hostname : Except Err String
  newResourceLock : Option Err

/-- Embedding of `RunClusterPolicyController`: returns the first error among its setup
steps; once they all succeed it spawns `go leaderelection.RunOrDie(...)`
(second component `true`) and immediately returns `nil`.  The world is
consumed only by the spawned callback (`originControllerManager`), never by
the return path, which is why the result does not depend on it. -/
def RunClusterPolicyController (d : RunDeps) (_w : World) : Option Err × Bool :=
  match d.newForConfig with
  | some e => (some e, false)
  | none =>
    match (if d.servingInfo then d.runControllerServer else none) with
    | some e => (some e, false)
    | none =>
      match d.hostname with
      | Except.error e => (some e, false)
      | Except.ok _ =>
        match d.newResourceLock with
        | some e => (some e, false)
        | none => (none, true)

/-- Events a process emits while the leader-election loop runs:
`callbackInvoked` is an invocation of `OnStartedLeading`
(`originControllerManager`); `fatalLeaderLost` is the `OnStoppedLeading`
callback `klog.Fatalf("leaderelection lost")` killing the process. -/
inductive ProcEvent where
  | callbackInvoked
  | fatalLeaderLost
  deriving DecidableEq

/-- States of the election loop of one process: `standby` (not holding the
lease), `leading` (holding it, callback invoked), `terminated` (process
exited after losing the lease). -/
inductive LeaderState where
  | standby
  | leading
  | terminated
  deriving DecidableEq

/-- Election events delivered by the coordination service. -/
inductive LeaderEvent where
  | acquired
  | lost
  deriving DecidableEq

/-- Modelled from the spec: one transition of `leaderelection.RunOrDie`,
which lives in `k8s.io/client-go` and is not part of the sources of this
repository.  Spec section 4.2 describes it as a state machine — Standby until
the lease is acquired; acquiring invokes `OnStartedLeading` exactly once per
transition into Leading; losing the lease while Leading invokes
`OnStoppedLeading`.  The callbacks installed by `RunClusterPolicyController`
make `OnStartedLeading` the leadership callback and `OnStoppedLeading` a
`klog.Fatalf`, so a loss terminates the process and no later event is
processed. -/
def leaderStep : LeaderState → LeaderEvent → LeaderState × List ProcEvent
  | LeaderState.standby, LeaderEvent.acquired => (LeaderState.leading, [ProcEvent.callbackInvoked])
  | LeaderState.standby, LeaderEvent.lost => (LeaderState.standby, [])
  | LeaderState.leading, LeaderEvent.acquired => (LeaderState.leading, [])
  | LeaderState.leading, LeaderEvent.lost => (LeaderState.terminated, [ProcEvent.fatalLeaderLost])
  | LeaderState.terminated, _ => (LeaderState.terminated, [])

/-- Modelled from the spec: the run of the election loop of one process over
a sequence of election events, emitting process events in order. -/
def leaderRunFrom : LeaderState → List LeaderEvent → List ProcEvent
  | _, [] => []
  | s, e :: es => (leaderStep s e).2 ++ leaderRunFrom (leaderStep s e).1 es

/-- Number of callback invocations in a process-event trace. -/
def countInvoked : List ProcEvent → Nat
  | [] => 0
  | ProcEvent.callbackInvoked :: t => countInvoked t + 1
  | ProcEvent.fatalLeaderLost :: t => countInvoked t

/-! Shared lemmas about the polling loops and the startup driver. -/

/-- The health closure never hands the poll an error, so the loop can only
end in success or in `wait.ErrWaitTimeout`. -/
lemma healthLoop_err_cases (client : Nat → ProbeResult) :
    ∀ (b i : Nat) (s : String),
      (healthLoop client b i s).1 = none ∨ (healthLoop client b i s).1 = some Err.timedOut := by
  intro b
  induction b with
  | zero => intro i s; right; rfl
  | succ b ih =>
    intro i s
    by_cases h : probeStatus (client i) ≠ 200
    · simp only [healthLoop, if_pos h]
      exact ih (i + 1) s
    · simp [healthLoop, if_neg h]

/-- When no probe among the next `b` calls returns status 200, the loop
spends its whole budget, leaves `healthzContent` untouched, and times out. -/
lemma healthLoop_exhaust (client : Nat → ProbeResult) :
    ∀ (b i : Nat) (s : String),
      (∀ k, k < b → probeStatus (client (i + k)) ≠ 200) →
      healthLoop client b i s = (some Err.timedOut, s, b) := by
  intro b
  induction b with
  | zero => intro i s _; rfl
  | succ b ih =>
    intro i s h
    have h0 : probeStatus (client i) ≠ 200 := by
      have hx := h 0 (Nat.succ_pos b)
      simpa using hx
    have hrec := ih (i + 1) s (fun k hk => by
      have hx := h (k + 1) (Nat.succ_lt_succ hk)
      have e : i + (k + 1) = i + 1 + k := by omega
      rw [e] at hx
      exact hx)
    simp only [healthLoop, if_pos h0, hrec]

/-- A probe that answers 200 at the current index ends the loop at once. -/
lemma healthLoop_first (client : Nat → ProbeResult) (b i : Nat) (s : String)
    (h : probeStatus (client i) = 200) :
    healthLoop client (b + 1) i s = (none, probeBody (client i), 1) := by
  simp only [healthLoop, if_neg (not_not_intro h)]

/-- A block of `j` consecutive denied responses only shifts the loop: the
outcome is that of the loop started `j` calls later, with `j` extra calls. -/
lemma authLoop_denied (client : SubjectAccessReviewSpec → Nat → AuthResult) :
    ∀ (j b i : Nat),
      (∀ k, k < j → client review (i + k) = AuthResult.resp false) →
      authLoop client (j + b) i
        = ((authLoop client b (i + j)).1, (authLoop client b (i + j)).2 + j) := by
  intro j
  induction j with
  | zero => intro b i _; simp
  | succ j ih =>
    intro b i h
    have h0 : client review i = AuthResult.resp false := by
      have hx := h 0 (Nat.succ_pos j)
      simpa using hx
    have hrec := ih b (i + 1) (fun k hk => by
      have hx := h (k + 1) (Nat.succ_lt_succ hk)
      have e : i + (k + 1) = i + 1 + k := by omega
      rw [e] at hx
      exact hx)
    have e1 : j + 1 + b = (j + b) + 1 := by omega
    rw [e1]
    simp only [authLoop, h0]
    rw [hrec]
    have e2 : i + 1 + j = i + (j + 1) := by omega
    rw [e2]
    simp [Nat.add_assoc]

/-- A request error at the current index stops the poll with that error
after exactly this one call. -/
lemma authLoop_transport (client : SubjectAccessReviewSpec → Nat → AuthResult)
    (b i : Nat) (m : String) (h : client review i = AuthResult.transportError m) :
    authLoop client (b + 1) i = (some (Err.transport m), 1) := by
  simp only [authLoop, h]

/-- An allowed decision at the current index ends the poll successfully
after exactly this one call. -/
lemma authLoop_allowed (client : SubjectAccessReviewSpec → Nat → AuthResult)
    (b i : Nat) (h : client review i = AuthResult.resp true) :
    authLoop client (b + 1) i = (none, 1) := by
  simp [authLoop, h]

/-- A disabled controller is skipped without any effect on the walk. -/
lemma startControllers_disabled (cc : ControllerContext) (c : Controller)
    (rest : List Controller) (h : cc.enabled c.name = false) :
    startControllers cc (c :: rest) = startControllers cc rest := by
  simp only [startControllers, if_pos h]

/-- An enabled controller whose `InitFunc` returns `(false, nil)` is invoked,
logged as a skip, and the walk continues unchanged otherwise. -/
lemma startControllers_skip (cc : ControllerContext) (c : Controller)
    (rest : List Controller) (hen : cc.enabled c.name = true)
    (hfn : c.initFn cc = (false, none)) :
    startControllers cc (c :: rest)
      = ((startControllers cc rest).1,
         c.name :: (startControllers cc rest).2.1,
         (startControllers cc rest).2.2) := by
  have h1 : (cc.enabled c.name = false) = False := by simp [hen]
  simp [startControllers, h1, hfn]

/-- An enabled controller whose `InitFunc` returns `(true, nil)` is invoked,
recorded as started, and the walk continues. -/
lemma startControllers_started (cc : ControllerContext) (c : Controller)
    (rest : List Controller) (hen : cc.enabled c.name = true)
    (hfn : c.initFn cc = (true, none)) :
    startControllers cc (c :: rest)
      = ((startControllers cc rest).1,
         c.name :: (startControllers cc rest).2.1,
         c.name :: (startControllers cc rest).2.2) := by
  have h1 : (cc.enabled c.name = false) = False := by simp [hen]
  simp [startControllers, h1, hfn]

/-- An enabled controller whose `InitFunc` returns an error ends the walk at
once with the fatal condition naming that controller. -/
lemma startControllers_failed (cc : ControllerContext) (c : Controller)
    (rest : List Controller) (e : Err) (hen : cc.enabled c.name = true)
    (hfn : (c.initFn cc).2 = some e) :
    startControllers cc (c :: rest)
      = (some (Err.controllerStart c.name e), [c.name], []) := by
  have h1 : (cc.enabled c.name = false) = False := by simp [hen]
  simp only [startControllers, h1, if_false, hfn]

/-- Walking a registry prefix in which no `InitFunc` errors (each entry is
disabled or returns a nil error) just accumulates its invoked and started
names in front of the walk of the remainder. -/
lemma startControllers_cleanWalk (cc : ControllerContext) :
    ∀ (pre rest : List Controller),
      (∀ d ∈ pre, cc.enabled d.name = false ∨ (d.initFn cc).2 = none) →
      startControllers cc (pre ++ rest)
        = ((startControllers cc rest).1,
           (pre.filter fun d => cc.enabled d.name).map Controller.name
             ++ (startControllers cc rest).2.1,
           (pre.filter fun d => cc.enabled d.name && (d.initFn cc).1).map Controller.name
             ++ (startControllers cc rest).2.2) := by
  intro pre
  induction pre with
  | nil => intro rest _; simp
  | cons d pre ih =>
    intro rest h
    have hd := h d (by simp)
    have hpre : ∀ x ∈ pre, cc.enabled x.name = false ∨ (x.initFn cc).2 = none :=
      fun x hx => h x (by simp [hx])
    by_cases hen : cc.enabled d.name = true
    · have h2 : (d.initFn cc).2 = none := by
        rcases hd with hd | hd
        · rw [hen] at hd; cases hd
        · exact hd
      by_cases hst : (d.initFn cc).1 = true
      · have hfn : d.initFn cc = (true, none) := by
          have := Prod.mk.eta (p := d.initFn cc)
          rw [← this, hst, h2]
        rw [List.cons_append, startControllers_started cc d (pre ++ rest) hen hfn,
            ih rest hpre]
        simp [List.filter_cons, hen, hst]
      · have hstf : (d.initFn cc).1 = false := by
          revert hst; cases (d.initFn cc).1 <;> simp
        have hfn : d.initFn cc = (false, none) := by
          have := Prod.mk.eta (p := d.initFn cc)
          rw [← this, hstf, h2]
        rw [List.cons_append, startControllers_skip cc d (pre ++ rest) hen hfn,
            ih rest hpre]
        simp [List.filter_cons, hen, hstf]
    · have henf : cc.enabled d.name = false := by
        revert hen; cases cc.enabled d.name <;> simp
      rw [List.cons_append, startControllers_disabled cc d (pre ++ rest) henf,
          ih rest hpre]
      simp [List.filter_cons, henf]

/-! Claim theorems. -/

/-- C5: for every K within the 120-call budget of the authorization wait, a
service that answers denied on the first K calls and allowed on call K+1
makes `WaitForAuthorizationUpdate` succeed (no error) after exactly K+1
calls. -/
theorem authWait_denied_then_allowed (client : SubjectAccessReviewSpec → Nat → AuthResult)
    (K : Nat) (hK : K < authBudget)
    (hden : ∀ k, k < K → client review k = AuthResult.resp false)
    (hall : client review K = AuthResult.resp true) :
    WaitForAuthorizationUpdate client = none ∧ authCalls client = K + 1 := by
  have hsplit : authBudget = K + (authBudget - K) := by omega
  have hden0 : ∀ k, k < K → client review (0 + k) = AuthResult.resp false := by
    intro k hk; rw [Nat.zero_add]; exact hden k hk
  have h1 := authLoop_denied client K (authBudget - K) 0 hden0
  rw [← hsplit, Nat.zero_add] at h1
  obtain ⟨b2, hb2⟩ : ∃ b2, authBudget - K = b2 + 1 := ⟨authBudget - K - 1, by omega⟩
  rw [hb2, authLoop_allowed client b2 K hall] at h1
  constructor
  · simp [WaitForAuthorizationUpdate, h1]
  · simp only [authCalls, h1]
    omega

/-- Authorization client answering denied twice, then allowed. -/
def authClientC5 : SubjectAccessReviewSpec → Nat → AuthResult :=
  fun _ i => if i < 2 then AuthResult.resp false else AuthResult.resp true

/-- Witness for C5 at K = 2: success after exactly three calls. -/
theorem authWait_denied_then_allowed_witness :
    WaitForAuthorizationUpdate authClientC5 = none ∧ authCalls authClientC5 = 3 :=
  authWait_denied_then_allowed authClientC5 2 (by decide)
    (fun k hk => by simp [authClientC5, hk]) (by rfl)

/-- C1: the two readiness waits have asymmetric transport-error policies.
First conjunct: whenever the authorization service answers denied up to some
call and a transport error on that call (within budget), the wait stops at
that very call with the wrapped transport error — no further polls.  Second
conjunct: the health wait can only return success or the wrapped timeout —
never a transport error — and a client failing at the transport level on
every probe is polled for the full 300-call budget before the timeout is
reported. -/
theorem waits_transport_policy_asymmetric :
    (∀ (client : SubjectAccessReviewSpec → Nat → AuthResult) (j : Nat) (m : String),
        j < authBudget →
        (∀ k, k < j → client review k = AuthResult.resp false) →
        client review j = AuthResult.transportError m →
        WaitForAuthorizationUpdate client = some (Err.missingRBAC (Err.transport m)) ∧
          authCalls client = j + 1) ∧
    (∀ client : Nat → ProbeResult,
        (WaitForHealthyAPIServer client = none ∨
          ∃ s, WaitForHealthyAPIServer client = some (Err.serverUnhealthy s Err.timedOut)) ∧
        ((∀ i, ∃ m, client i = ProbeResult.transportError m) →
          WaitForHealthyAPIServer client = some (Err.serverUnhealthy "" Err.timedOut) ∧
            healthCalls client = healthBudget)) := by
  constructor
  · intro client j m hj hden htr
    have hsplit : authBudget = j + (authBudget - j) := by omega
    have hden0 : ∀ k, k < j → client review (0 + k) = AuthResult.resp false := by
      intro k hk; rw [Nat.zero_add]; exact hden k hk
    have h1 := authLoop_denied client j (authBudget - j) 0 hden0
    rw [← hsplit, Nat.zero_add] at h1
    obtain ⟨b2, hb2⟩ : ∃ b2, authBudget - j = b2 + 1 := ⟨authBudget - j - 1, by omega⟩
    rw [hb2, authLoop_transport client b2 j m htr] at h1
    constructor
    · simp [WaitForAuthorizationUpdate, h1]
    · simp only [authCalls, h1]
      omega
  · intro client
    constructor
    · rcases hsplit : healthLoop client healthBudget 0 "" with ⟨o, s, n⟩
      have hcases := healthLoop_err_cases client healthBudget 0 ""
      rw [hsplit] at hcases
      simp only at hcases
      rcases hcases with ho | ho
      · left
        simp [WaitForHealthyAPIServer, hsplit, ho]
      · right
        exact ⟨s, by simp [WaitForHealthyAPIServer, hsplit, ho]⟩
    · intro hall
      have hfail : ∀ k, k < healthBudget → probeStatus (client (0 + k)) ≠ 200 := by
        intro k _
        obtain ⟨m, hm⟩ := hall (0 + k)
        rw [hm]
        simp [probeStatus]
      have hx := healthLoop_exhaust client healthBudget 0 "" hfail
      exact ⟨by simp [WaitForHealthyAPIServer, hx], by simp [healthCalls, hx]⟩

/-- Authorization client answering denied twice, then a transport error. -/
def authClientC1 : SubjectAccessReviewSpec → Nat → AuthResult :=
  fun _ i => if i < 2 then AuthResult.resp false else AuthResult.transportError "connection refused"

/-- Health client failing at the transport level on every probe. -/
def healthClientC1 : Nat → ProbeResult :=
  fun _ => ProbeResult.transportError "connection refused"

/-- Witness for C1: the authorization wait aborts on its third call (the
first transport error) while the health wait, all of whose probes are
transport errors, polls its full 300-call budget and reports the timeout. -/
theorem waits_transport_policy_asymmetric_witness :
    (WaitForAuthorizationUpdate authClientC1
        = some (Err.missingRBAC (Err.transport "connection refused")) ∧
      authCalls authClientC1 = 3) ∧
    (WaitForHealthyAPIServer healthClientC1 = some (Err.serverUnhealthy "" Err.timedOut) ∧
      healthCalls healthClientC1 = healthBudget) :=
  ⟨waits_transport_policy_asymmetric.1 authClientC1 2 "connection refused" (by decide)
      (fun k hk => by simp [authClientC1, hk]) (by rfl),
   (waits_transport_policy_asymmetric.2 healthClientC1).2
      (fun _ => ⟨"connection refused", rfl⟩)⟩

/-- C4 (amended): if no probe within the budget returns a success status,
`WaitForHealthyAPIServer` returns a terminal error after the full budget of
calls, but the response-body slot of that error carries the closure variable
`healthzContent`, which is assigned only on a successful probe — so on the
timeout path the error always embeds the empty string, never the body of any
failed probe. -/
theorem healthWait_timeout_empty_content (client : Nat → ProbeResult)
    (h : ∀ i, i < healthBudget → probeStatus (client i) ≠ 200) :
    WaitForHealthyAPIServer client = some (Err.serverUnhealthy "" Err.timedOut) ∧
    healthCalls client = healthBudget := by
  have h0 : ∀ k, k < healthBudget → probeStatus (client (0 + k)) ≠ 200 := by
    intro k hk; rw [Nat.zero_add]; exact h k hk
  have hx := healthLoop_exhaust client healthBudget 0 "" h0
  exact ⟨by simp [WaitForHealthyAPIServer, hx], by simp [healthCalls, hx]⟩

/-- Health client that always answers 500 with body "boom". -/
def healthClientC4 : Nat → ProbeResult :=
  fun _ => ProbeResult.resp 500 "boom"

/-- Counterexample to C4 as stated: a client that always answers status 500
with body "boom" never succeeds, yet the terminal error embeds the empty
string, and its rendered message does not contain the last observed response
body "boom" anywhere. -/
theorem healthWait_lastBody_counterexample :
    WaitForHealthyAPIServer healthClientC4 = some (Err.serverUnhealthy "" Err.timedOut) ∧
    probeStatus (healthClientC4 0) = 500 ∧
    probeBody (healthClientC4 0) = "boom" ∧
    hasSub "boom".data (errMessage (Err.serverUnhealthy "" Err.timedOut)).data = false := by
  have hx := healthLoop_exhaust healthClientC4 healthBudget 0 ""
    (fun k _ => by simp [healthClientC4, probeStatus])
  refine ⟨by simp [WaitForHealthyAPIServer, hx], rfl, rfl, ?_⟩
  decide

/-- Health client that always answers 503 "service unavailable". -/
def healthClientC4w : Nat → ProbeResult :=
  fun _ => ProbeResult.resp 503 "service unavailable"

/-- Witness for the amended C4: an always-unhealthy client times out after
300 calls with the empty-content error. -/
theorem healthWait_timeout_empty_content_witness :
    WaitForHealthyAPIServer healthClientC4w = some (Err.serverUnhealthy "" Err.timedOut) ∧
    healthCalls healthClientC4w = healthBudget :=
  healthWait_timeout_empty_content healthClientC4w
    (fun i _ => by simp [healthClientC4w, probeStatus])

/-- C8: when every probe answers a success status, `WaitForHealthyAPIServer`
succeeds on its very first probe call, and running the wait again (the client
continuing after the calls the first run consumed) yields the same
observable outcome — success on the first of the repeated calls. -/
theorem healthWait_idempotent_when_healthy (client : Nat → ProbeResult)
    (h : ∀ i, probeStatus (client i) = 200) :
    (WaitForHealthyAPIServer client = none ∧ healthCalls client = 1) ∧
    (WaitForHealthyAPIServer (fun i => client (i + healthCalls client)) = none ∧
      healthCalls (fun i => client (i + healthCalls client)) = 1) := by
  have key : ∀ cl : Nat → ProbeResult, (∀ i, probeStatus (cl i) = 200) →
      WaitForHealthyAPIServer cl = none ∧ healthCalls cl = 1 := by
    intro cl hcl
    have hb : healthBudget = 299 + 1 := rfl
    have hf := healthLoop_first cl 299 0 "" (hcl 0)
    exact ⟨by simp [WaitForHealthyAPIServer, hb, hf], by simp [healthCalls, hb, hf]⟩
  exact ⟨key client h, key _ (fun i => h (i + healthCalls client))⟩

/-- Health client that always answers 200 "ok". -/
def healthClientC8 : Nat → ProbeResult :=
  fun _ => ProbeResult.resp 200 "ok"

/-- Witness for C8: the always-healthy client succeeds on the first call,
and so does the repeated wait. -/
theorem healthWait_idempotent_when_healthy_witness :
    (WaitForHealthyAPIServer healthClientC8 = none ∧ healthCalls healthClientC8 = 1) ∧
    (WaitForHealthyAPIServer (fun i => healthClientC8 (i + healthCalls healthClientC8)) = none ∧
      healthCalls (fun i => healthClientC8 (i + healthCalls healthClientC8)) = 1) :=
  healthWait_idempotent_when_healthy healthClientC8 (fun _ => rfl)

/-- C2: startControllers is fail-fast.  For a registry whose prefix raises no
init error, followed by an enabled controller whose `InitFunc` errors, the
walk is identical to the walk of the registry truncated right after the
failing controller — so the `InitFunc` of no later controller is invoked — the
outcome is the fatal condition naming the failing controller, the invoked
names are exactly the enabled prefix plus the failing one, and the
already-started prefix names are still recorded (no rollback). -/
theorem startControllers_failFast (cc : ControllerContext)
    (pre : List Controller) (c : Controller) (post : List Controller) (e : Err)
    (hpre : ∀ d ∈ pre, cc.enabled d.name = false ∨ (d.initFn cc).2 = none)
    (hen : cc.enabled c.name = true)
    (hfail : (c.initFn cc).2 = some e) :
    startControllers cc (pre ++ c :: post) = startControllers cc (pre ++ [c]) ∧
    (startControllers cc (pre ++ c :: post)).1 = some (Err.controllerStart c.name e) ∧
    (startControllers cc (pre ++ c :: post)).2.1
      = (pre.filter fun d => cc.enabled d.name).map Controller.name ++ [c.name] ∧
    (startControllers cc (pre ++ c :: post)).2.2
      = (pre.filter fun d => cc.enabled d.name && (d.initFn cc).1).map Controller.name := by
  have hc : ∀ tail : List Controller,
      startControllers cc (c :: tail) = (some (Err.controllerStart c.name e), [c.name], []) :=
    fun tail => startControllers_failed cc c tail e hen hfail
  have h1 := startControllers_cleanWalk cc pre (c :: post) hpre
  have h2 := startControllers_cleanWalk cc pre [c] hpre
  rw [hc post] at h1
  rw [hc []] at h2
  refine ⟨by rw [h1, h2], by rw [h1], by rw [h1], by rw [h1]; simp⟩

/-- Context for the C2 witness: everything enabled. -/
def cc2w : ControllerContext := ⟨fun _ => true⟩

/-- First controller of the C2 witness registry: its `InitFunc` errors. -/
def ctrlA : Controller := ⟨"alpha", fun _ => (false, some (Err.other "boom"))⟩

/-- Second controller of the C2 witness registry (never reached). -/
def ctrlB : Controller := ⟨"beta", fun _ => (true, none)⟩

/-- Third controller of the C2 witness registry (never reached). -/
def ctrlC : Controller := ⟨"gamma", fun _ => (true, none)⟩

/-- Witness for C2: with the first of three controllers failing, the walk
equals the walk of just the first controller (the other two are never
invoked) and aborts with the fatal condition naming it. -/
theorem startControllers_failFast_witness :
    startControllers cc2w ([] ++ ctrlA :: [ctrlB, ctrlC]) = startControllers cc2w ([] ++ [ctrlA]) ∧
    (startControllers cc2w ([] ++ ctrlA :: [ctrlB, ctrlC])).1
      = some (Err.controllerStart "alpha" (Err.other "boom")) ∧
    (startControllers cc2w ([] ++ ctrlA :: [ctrlB, ctrlC])).2.1
      = (List.filter (fun d => cc2w.enabled d.name) []).map Controller.name ++ ["alpha"] ∧
    (startControllers cc2w ([] ++ ctrlA :: [ctrlB, ctrlC])).2.2
      = (List.filter (fun d => cc2w.enabled d.name && (d.initFn cc2w).1) []).map Controller.name :=
  startControllers_failFast cc2w [] ctrlA [ctrlB, ctrlC] (Err.other "boom")
    (fun d hd => absurd hd (List.not_mem_nil d)) rfl rfl

/-- Context for C6: controller "two" is disabled, everything else enabled. -/
def cc6 : ControllerContext := ⟨fun n => ! decide (n = "two")⟩

/-- First controller of the C6 registry. -/
def ctrlOne : Controller := ⟨"one", fun _ => (true, none)⟩

/-- Second controller of the C6 registry, disabled by `cc6`. -/
def ctrlTwo : Controller := ⟨"two", fun _ => (true, none)⟩

/-- Third controller of the C6 registry. -/
def ctrlThree : Controller := ⟨"three", fun _ => (true, none)⟩

/-- World for C6: both waits succeed at once and the context carries `cc6`. -/
def w6 : World :=
  { healthClient := fun _ => ProbeResult.resp 200 "ok"
    authClient := fun _ _ => AuthResult.resp true
    newContext := Except.ok cc6
    registry := [ctrlOne, ctrlTwo, ctrlThree] }

/-- C6: a disabled controller is skipped without error and without its
`InitFunc` being invoked (the walk is the walk of the remaining registry),
and a controller returning `(false, nil)` is invoked but skipped without
error, the walk continuing; in the concrete three-controller registry with
the second disabled, exactly controllers one and three are invoked and
`StartInformers` runs once, after both invocations. -/
theorem startControllers_skip_semantics :
    (∀ (cc : ControllerContext) (c : Controller) (rest : List Controller),
        cc.enabled c.name = false →
        startControllers cc (c :: rest) = startControllers cc rest) ∧
    (∀ (cc : ControllerContext) (c : Controller) (rest : List Controller),
        cc.enabled c.name = true → c.initFn cc = (false, none) →
        startControllers cc (c :: rest)
          = ((startControllers cc rest).1,
             c.name :: (startControllers cc rest).2.1,
             (startControllers cc rest).2.2)) ∧
    originControllerManager w6
      = [Step.healthOk, Step.authOk, Step.ctxOk,
         Step.initCall "one", Step.initCall "three", Step.informersStart] := by
  refine ⟨startControllers_disabled, startControllers_skip, ?_⟩
  rfl

/-- Context for the C6 witness: only "stay" is enabled. -/
def cc6w : ControllerContext := ⟨fun n => decide (n = "stay")⟩

/-- Disabled controller of the C6 witness. -/
def ctrlDis : Controller := ⟨"gone", fun _ => (true, none)⟩

/-- Enabled controller of the C6 witness whose `InitFunc` returns `(false, nil)`. -/
def ctrlSkip : Controller := ⟨"stay", fun _ => (false, none)⟩

/-- Witness for C6: a disabled singleton registry behaves like the empty
one, and a `(false, nil)` controller is recorded as invoked but not
started, with no error. -/
theorem startControllers_skip_semantics_witness :
    startControllers cc6w (ctrlDis :: []) = startControllers cc6w [] ∧
    startControllers cc6w (ctrlSkip :: [])
      = ((startControllers cc6w []).1,
         "stay" :: (startControllers cc6w []).2.1,
         (startControllers cc6w []).2.2) :=
  ⟨startControllers_skip_semantics.1 cc6w ctrlDis [] (by decide),
   startControllers_skip_semantics.2.1 cc6w ctrlSkip [] (by decide) rfl⟩

/-- C3: within one leadership term the callback runs a strict sequence.  If
the authorization wait completed, the health wait completed first; if the
`InitFunc` of any controller was invoked, both waits and the context construction
completed first; `StartInformers` is called at most once, as the very last
step, and only when no fatal occurred anywhere in the startup pass (every
`InitFunc` call lies in the prefix before it). -/
theorem callback_strict_sequence (w : World) :
    (Step.authOk ∈ originControllerManager w →
      ∃ tl, originControllerManager w = Step.healthOk :: tl) ∧
    ((∃ n, Step.initCall n ∈ originControllerManager w) →
      ∃ tl, originControllerManager w
          = Step.healthOk :: Step.authOk :: Step.ctxOk :: tl) ∧
    (Step.informersStart ∈ originControllerManager w →
      ∃ l, originControllerManager w = l ++ [Step.informersStart] ∧
        Step.informersStart ∉ l ∧ ∀ e, Step.fatal e ∉ originControllerManager w) := by
  cases h1 : WaitForHealthyAPIServer w.healthClient with
  | some e =>
    simp only [originControllerManager, h1]
    refine ⟨fun hmem => ?_, fun hex => ?_, fun hmem => ?_⟩
    · simp at hmem
    · obtain ⟨n, hn⟩ := hex; simp at hn
    · simp at hmem
  | none =>
    cases h2 : WaitForAuthorizationUpdate w.authClient with
    | some e =>
      simp only [originControllerManager, h1, h2]
      refine ⟨fun _ => ⟨[Step.fatal e], rfl⟩, fun hex => ?_, fun hmem => ?_⟩
      · obtain ⟨n, hn⟩ := hex; simp at hn
      · simp at hmem
    | none =>
      cases h3 : w.newContext with
      | error e =>
        simp only [originControllerManager, h1, h2, h3]
        refine ⟨fun _ => ⟨Step.authOk :: [Step.fatal e], rfl⟩, fun hex => ?_, fun hmem => ?_⟩
        · obtain ⟨n, hn⟩ := hex; simp at hn
        · simp at hmem
      | ok cc =>
        rcases h4 : startControllers cc w.registry with ⟨o, inv, st⟩
        cases o with
        | some e =>
          simp only [originControllerManager, h1, h2, h3, h4]
          refine ⟨fun _ => ⟨_, rfl⟩, fun _ => ⟨_, rfl⟩, fun hmem => ?_⟩
          · exfalso
            simp [List.mem_append, List.mem_map] at hmem
        | none =>
          simp only [originControllerManager, h1, h2, h3, h4]
          refine ⟨fun _ => ⟨_, rfl⟩, fun _ => ⟨_, rfl⟩, fun _ => ?_⟩
          refine ⟨Step.healthOk :: Step.authOk :: Step.ctxOk :: inv.map Step.initCall,
            by simp, by simp [List.mem_map], fun e => by simp [List.mem_append, List.mem_map]⟩

/-- World for the C3 witness: both waits succeed, the context is built, and
one controller starts, so the full trace occurs. -/
def w3 : World :=
  { healthClient := fun _ => ProbeResult.resp 200 "ok"
    authClient := fun _ _ => AuthResult.resp true
    newContext := Except.ok ⟨fun _ => true⟩
    registry := [⟨"ctrl", fun _ => (true, none)⟩] }

/-- Witness for C3 on the concrete world `w3`: the trace starts with the
three gates before the init call, and ends with the unique, fatal-free
`StartInformers`. -/
theorem callback_strict_sequence_witness :
    (∃ tl, originControllerManager w3
        = Step.healthOk :: Step.authOk :: Step.ctxOk :: tl) ∧
    (∃ l, originControllerManager w3 = l ++ [Step.informersStart] ∧
      Step.informersStart ∉ l ∧ ∀ e, Step.fatal e ∉ originControllerManager w3) :=
  ⟨(callback_strict_sequence w3).2.1 ⟨"ctrl", by decide⟩,
   (callback_strict_sequence w3).2.2 (by decide)⟩

/-- C10: a registry each of whose entries is disabled or returns
`(false, nil)` — the empty registry included — makes `startControllers`
return no error and start nothing, and the callback still reaches
`StartInformers` whenever the two waits and the context construction
succeed. -/
theorem startControllers_allSkip_ok (cc : ControllerContext) (reg : List Controller)
    (h : ∀ c ∈ reg, cc.enabled c.name = false ∨ c.initFn cc = (false, none)) :
    (startControllers cc reg).1 = none ∧
    (startControllers cc reg).2.2 = [] ∧
    (∀ w : World,
        w.newContext = Except.ok cc → w.registry = reg →
        WaitForHealthyAPIServer w.healthClient = none →
        WaitForAuthorizationUpdate w.authClient = none →
        Step.informersStart ∈ originControllerManager w) := by
  have h2 : ∀ c ∈ reg, cc.enabled c.name = false ∨ (c.initFn cc).2 = none := by
    intro c hc
    rcases h c hc with hh | hh
    · left; exact hh
    · right; rw [hh]
  have hw := startControllers_cleanWalk cc reg [] h2
  rw [List.append_nil] at hw
  have hfst : (startControllers cc reg).1 = none := by rw [hw]; rfl
  have hstarted : (startControllers cc reg).2.2 = [] := by
    rw [hw]
    have hf : reg.filter (fun d => cc.enabled d.name && (d.initFn cc).1) = [] := by
      rw [List.filter_eq_nil_iff]
      intro a ha
      rcases h a ha with hh | hh
      · simp [hh]
      · simp [hh]
    simp [hf, startControllers]
  refine ⟨hfst, hstarted, ?_⟩
  intro w hctx hreg hh ha
  rcases hsc : startControllers cc reg with ⟨o, inv, st⟩
  rw [hsc] at hfst
  simp only at hfst
  subst hfst
  simp only [originControllerManager, hh, ha, hctx, hreg, hsc]
  simp

/-- Context for the C10 witness: nothing enabled (irrelevant for the empty
registry). -/
def cc10 : ControllerContext := ⟨fun _ => false⟩

/-- World for the C10 witness: both waits succeed and the registry is empty. -/
def w10 : World :=
  { healthClient := fun _ => ProbeResult.resp 200 "ok"
    authClient := fun _ _ => AuthResult.resp true
    newContext := Except.ok cc10
    registry := [] }

/-- Witness for C10 on the empty registry: no error, nothing started, and
the informers still start. -/
theorem startControllers_allSkip_ok_witness :
    (startControllers cc10 ([] : List Controller)).1 = none ∧
    (startControllers cc10 ([] : List Controller)).2.2 = [] ∧
    Step.informersStart ∈ originControllerManager w10 :=
  have h := startControllers_allSkip_ok cc10 [] (fun c hc => absurd hc (List.not_mem_nil c))
  ⟨h.1, h.2.1, h.2.2 w10 rfl rfl rfl rfl⟩

/-- C9: when client construction, the optional controller server, hostname
lookup and resource-lock construction all succeed,
`RunClusterPolicyController` spawns the leader-election loop and returns
nil; the return value is the same whatever the callback world holds, so no
failure of the readiness waits, the context construction or the controller
startup is ever reported through it. -/
theorem run_returns_nil_after_spawn (d : RunDeps) (w : World)
    (h1 : d.newForConfig = none)
    (h2 : d.servingInfo = true → d.runControllerServer = none)
    (h3 : ∃ host, d.hostname = Except.ok host)
    (h4 : d.newResourceLock = none) :
    RunClusterPolicyController d w = (none, true) ∧
    (∀ w2 : World, RunClusterPolicyController d w2 = RunClusterPolicyController d w) := by
  obtain ⟨host, hh⟩ := h3
  have hserve : (if d.servingInfo then d.runControllerServer else none) = none := by
    cases hs : d.servingInfo
    · simp
    · simp [hs, h2 hs]
  refine ⟨?_, fun w2 => rfl⟩
  simp [RunClusterPolicyController, h1, hserve, hh, h4]

/-- Setup outcomes for the C9 witness: everything succeeds. -/
def d9 : RunDeps :=
  { newForConfig := none
    servingInfo := true
    runControllerServer := none
    hostname := Except.ok "node-0"
    newResourceLock := none }

/-- Callback world for the C9 witness in which everything would go fatally
wrong: both waits fail and the context construction errors. -/
def w9 : World :=
  { healthClient := fun _ => ProbeResult.transportError "down"
    authClient := fun _ _ => AuthResult.transportError "down"
    newContext := Except.error (Err.other "ctx failure")
    registry := [] }

/-- Healthy callback world for the C9 witness. -/
def w9b : World :=
  { healthClient := fun _ => ProbeResult.resp 200 "ok"
    authClient := fun _ _ => AuthResult.resp true
    newContext := Except.ok ⟨fun _ => true⟩
    registry := [] }

/-- Witness for C9: with a catastrophic callback world the entry point still
returns nil after spawning, exactly as with a healthy one. -/
theorem run_returns_nil_after_spawn_witness :
    RunClusterPolicyController d9 w9 = (none, true) ∧
    RunClusterPolicyController d9 w9b = RunClusterPolicyController d9 w9 :=
  have h := run_returns_nil_after_spawn d9 w9 rfl (fun _ => rfl) ⟨"node-0", rfl⟩ rfl
  ⟨h.1, h.2 w9b⟩

/-- A terminated process emits nothing more, whatever events arrive. -/
lemma leaderRunFrom_terminated :
    ∀ es : List LeaderEvent, leaderRunFrom LeaderState.terminated es = [] := by
  intro es
  induction es with
  | nil => rfl
  | cons e es ih => cases e <;> simp [leaderRunFrom, leaderStep, ih]

/-- From the leading state no further callback invocation is ever emitted:
the loop can only stay leading or terminate. -/
lemma countInvoked_leading :
    ∀ es : List LeaderEvent, countInvoked (leaderRunFrom LeaderState.leading es) = 0 := by
  intro es
  induction es with
  | nil => rfl
  | cons e es ih =>
    cases e
    · simp [leaderRunFrom, leaderStep, ih]
    · simp [leaderRunFrom, leaderStep, leaderRunFrom_terminated, countInvoked]

/-- C7: one lease acquisition invokes the leadership callback exactly once,
and a loss after the callback started terminates the process: whatever
events follow the loss, the emitted trace is exactly one callback
invocation followed by the fatal — in particular no second acquisition is
processed; moreover no run of the loop ever invokes the callback twice. -/
theorem leaderElection_single_callback :
    (∀ rest : List LeaderEvent,
        leaderRunFrom LeaderState.standby (LeaderEvent.acquired :: LeaderEvent.lost :: rest)
          = [ProcEvent.callbackInvoked, ProcEvent.fatalLeaderLost]) ∧
    (∀ es : List LeaderEvent, countInvoked (leaderRunFrom LeaderState.standby es) ≤ 1) := by
  constructor
  · intro rest
    simp [leaderRunFrom, leaderStep, leaderRunFrom_terminated]
  · intro es
    induction es with
    | nil => simp [leaderRunFrom, countInvoked]
    | cons e es ih =>
      cases e
      · simp [leaderRunFrom, leaderStep, countInvoked, countInvoked_leading]
      · simpa [leaderRunFrom, leaderStep] using ih
